import Mathlib

/-!
# PufferPanel daemon websocket dispatcher

A shallow embedding of `web/daemon/websocket.go` (`listenOnSocket`, `handleGetFile`).

The Go code is effectful: it reads frames from a socket, calls methods of a
`servers.Server` and of its `Environment`, and writes frames back.  The embedding makes every
effect explicit:

* the server is an abstract state `σ`; each Server/Environment method is a function on `σ`
  that either returns (Go result values and the new state) or raises a fault (a Go panic);
* what one frame's handling does is recorded as a list of `Event`s in program order
  (method calls, frames written, log lines);
* the connection is the list of results `conn.ReadMessage` yields.

What `websocket.go` takes from other packages (`pufferpanel.ContainsScope`,
`config.WebSocketFileLimit`, the `Server` and `Environment` methods) and the standard-library
function `strings.ToLower` are fields of the record `Deps`, so every general theorem holds
for any implementation of them.  `path.Dir` is embedded from the Go standard library.
-/

namespace Pufferpanel

/-! ## Go values -/

/-- A Go `interface{}` value as `json.Unmarshal` stores it in a `map[string]interface{}`.
The dispatcher only inspects strings and booleans. -/
inductive JValue where
  | null
  | bool (b : Bool)
  | number (n : Int)
  | str (s : String)
  | array (xs : List JValue)
  | object (fields : List (String × JValue))

/-- The `mapping` of `listenOnSocket`: the decoded `map[string]interface{}`. -/
abbrev Mapping := List (String × JValue)

/-- Go `mapping[key]`: the stored value, or the nil interface for a missing key. -/
def Mapping.get (m : Mapping) (key : String) : JValue :=
  match m.lookup key with
  | some v => v
  | none => JValue.null

/-- Go type assertion `v.(string)`: `some s` when `ok`. -/
def JValue.asString : JValue → Option String
  | JValue.str s => some s
  | _ => none

/-- Go type assertion `v.(bool)`: `some b` when `ok`. -/
def JValue.asBool : JValue → Option Bool
  | JValue.bool b => some b
  | _ => none

/-- A Go `error` value, identified with the text `err.Error()` returns. -/
abbrev GoError := String

/-- The capability scopes `listenOnSocket` asks for; `other` stands for every further
member of `pufferpanel.Scope`. -/
inductive Scope where
  | ServerLogs
  | ServerStat
  | ServerStatus
  | ServerStart
  | ServerStop
  | ServerInstall
  | ServerKill
  | ServerReload
  | ServerSendCommand
  | ServerFileGet
  | ServerFileEdit
  | other (name : String)
  deriving DecidableEq, Repr

/-! ## Messages -/

/-- An entry of a directory listing (`messages.FileDesc`); the dispatcher passes listings
through unchanged, so only the entry name is kept. -/
abbrev FileDesc := String

/-- The result `*pufferpanel.Stats` of `GetStats`.  The Go fields are `float64`; they are only
copied or replaced by the literal `0`, never computed with, so integers stand for them. -/
structure Stats where
  Cpu : Int
  Memory : Int
  deriving DecidableEq, Repr

/-- The message `messages.Stat`. -/
structure Stat where
  Cpu : Int
  Memory : Int
  deriving DecidableEq, Repr

/-- The message `messages.Status`; the field `Installing` is the one the `InstallServer`
test reads. -/
structure Status where
  Running : Bool
  Installing : Bool
  deriving DecidableEq, Repr

/-- The message `messages.FileList`; a field the Go literal leaves out has its zero value
(`""`, or `none` for a nil slice). -/
structure FileListMsg where
  CurrentPath : String
  Url : String
  Error : String
  Contents : Option (List Nat)
  Filename : String
  FileList : Option (List FileDesc)
  deriving DecidableEq, Repr

/-- The zero value `messages.FileList{}`. -/
def FileListMsg.zero : FileListMsg :=
  { CurrentPath := "", Url := "", Error := "", Contents := none, Filename := "",
    FileList := none }

/-- The values handed to `conn.WriteMessage`. -/
inductive Message where
  | Console (Logs : List String)
  | Stat (m : Stat)
  | Status (m : Status)
  | Pong
  | FileList (m : FileListMsg)
  deriving DecidableEq, Repr

/-- What `server.GetItem` returns on success (`FileData`): `Contents` is the byte content of
the stream (`none` for a nil reader), `FileList` the listing (`none` for a nil slice). -/
structure FileData where
  Contents : Option (List Nat)
  ContentLength : Int
  FileList : Option (List FileDesc)
  Name : String
  deriving DecidableEq, Repr

/-! ## Effects -/

/-- The Server and Environment methods `listenOnSocket` invokes. -/
inductive Call where
  | GetConsole
  | GetStats
  | IsRunning
  | Start
  | Stop
  | Install
  | Kill
  | Reload
  | ExecuteInMainProcess (cmd : String)
  | GetItem (path : String)
  | DeleteItem (path : String)
  | CreateFolder (path : String)
  deriving DecidableEq, Repr

/-- The `logging.Error.Printf` lines of `listenOnSocket`. -/
inductive LogLine where
  | readError
  | decodeError
  | typeNotString
  | recovered
  deriving DecidableEq, Repr

/-- One observable step of the dispatcher. -/
inductive Event where
  | call (c : Call)
  | WriteMessage (m : Message)
  | WriteJSON (obj : List (String × String))
  | log (l : LogLine)
  deriving DecidableEq, Repr

/-- Whether an event is an invocation of a Server or Environment method. -/
def Event.isCall : Event → Bool
  | Event.call _ => true
  | _ => false

/-- Whether an event writes a response frame. -/
def Event.isWrite : Event → Bool
  | Event.WriteMessage _ => true
  | Event.WriteJSON _ => true
  | _ => false

/-- The response frames among a list of events, in the order written. -/
def responses (tr : List Event) : List Event := tr.filter Event.isWrite

/-- The Server/Environment calls among a list of events, in the order made. -/
def calls (tr : List Event) : List Event := tr.filter Event.isCall

/-- Result of one Server/Environment method: it returns `v` leaving the server in state `s`,
or it raises a fault (a Go panic) leaving the server in state `s`. -/
inductive OpResult (σ α : Type) where
  | ret (v : α) (s : σ)
  | fault (s : σ)
  deriving DecidableEq

/-- Everything `websocket.go` uses but does not define. -/
structure Deps (σ : Type) where
  /-- Go `strings.ToLower`. -/
  ToLower : String → String
  /-- The function `pufferpanel.ContainsScope`. -/
  ContainsScope : List Scope → Scope → Bool
  /-- The value `int64(config.WebSocketFileLimit.Value())`. -/
  WebSocketFileLimit : Int
  /-- The method `server.GetEnvironment().GetConsole()`; its second result is discarded. -/
  GetConsole : σ → OpResult σ (List String × Option GoError)
  /-- The method `server.GetEnvironment().GetStats()`. -/
  GetStats : σ → OpResult σ (Stats × Option GoError)
  /-- The method `server.IsRunning()`. -/
  IsRunning : σ → OpResult σ (Bool × Option GoError)
  /-- The method `server.Start()`. -/
  Start : σ → OpResult σ (Option GoError)
  /-- The method `server.Stop()`. -/
  Stop : σ → OpResult σ (Option GoError)
  /-- The method `server.Install()`. -/
  Install : σ → OpResult σ (Option GoError)
  /-- The method `server.Kill()`. -/
  Kill : σ → OpResult σ (Option GoError)
  /-- The call `servers.Reload(server.Id())`. -/
  Reload : σ → OpResult σ (Option GoError)
  /-- The method `server.GetEnvironment().ExecuteInMainProcess(cmd)`. -/
  ExecuteInMainProcess : String → σ → OpResult σ (Option GoError)
  /-- The method `server.GetItem(path)`. -/
  GetItem : String → σ → OpResult σ (FileData × Option GoError)
  /-- The method `server.DeleteItem(path)`. -/
  DeleteItem : String → σ → OpResult σ (Option GoError)
  /-- The method `server.CreateFolder(path)`. -/
  CreateFolder : String → σ → OpResult σ (Option GoError)

/-- What running a piece of the dispatcher from a server state gives: `val = none` means a
fault is propagating, `server` is the state reached, `trace` the events in program order. -/
structure Outcome (σ α : Type) where
  val : Option α
  server : σ
  trace : List Event

/-- A piece of dispatcher code: a function from the server state to its outcome. -/
def Act (σ α : Type) : Type := σ → Outcome σ α

/-- Normal completion without any effect. -/
def Act.pure {σ α : Type} (a : α) : Act σ α := fun s => ⟨some a, s, []⟩

/-- Sequencing: a fault in the first part skips the second. -/
def Act.bind {σ α β : Type} (m : Act σ α) (f : α → Act σ β) : Act σ β := fun s =>
  match m s with
  | ⟨some a, s1, tr1⟩ =>
    match f a s1 with
    | ⟨v, s2, tr2⟩ => ⟨v, s2, tr1 ++ tr2⟩
  | ⟨none, s1, tr1⟩ => ⟨none, s1, tr1⟩

instance {σ : Type} : Monad (Act σ) where
  pure := Act.pure
  bind := Act.bind

/-- Invoke a Server/Environment method, recording the call. -/
def invoke {σ α : Type} (c : Call) (op : σ → OpResult σ α) : Act σ α := fun s =>
  match op s with
  | OpResult.ret v s1 => ⟨some v, s1, [Event.call c]⟩
  | OpResult.fault s1 => ⟨none, s1, [Event.call c]⟩

/-- The call `conn.WriteMessage(msg)`; its error result is discarded by every caller. -/
def WriteMessage {σ : Type} (m : Message) : Act σ Unit := fun s =>
  ⟨some (), s, [Event.WriteMessage m]⟩

/-- The call `conn.WriteJSON(obj)` on a `map[string]string`. -/
def WriteJSON {σ : Type} (obj : List (String × String)) : Act σ Unit := fun s =>
  ⟨some (), s, [Event.WriteJSON obj]⟩

/-- The call `logging.Error.Printf`. -/
def logError {σ : Type} (l : LogLine) : Act σ Unit := fun s =>
  ⟨some (), s, [Event.log l]⟩

/-! ## Go standard library: `path.Dir` -/

/-- The backtracking of `path.Clean` on a `..` element, started at `w = out.w - 1`:
`for out.w > dotdot && out.index(out.w) != '/' { out.w-- }`; the result is the new `out.w`. -/
def backtrack (out : List Char) (dotdot : Nat) : Nat → Nat
  | 0 => 0
  | w + 1 =>
    if dotdot < w + 1 ∧ out.getD (w + 1) '/' ≠ '/' then backtrack out dotdot w else w + 1

/-- The main loop `for r < n` of Go `path.Clean`: `rest` is `path[r:]`, `out` the bytes
written so far (`out.w` is its length).  Every round consumes at least one byte of `rest`, so
the fuel `rest.length` suffices. -/
def cleanLoop (rooted : Bool) : Nat → List Char → List Char → Nat → List Char
  | 0, _, out, _ => out
  | _ + 1, [], out, _ => out
  | fuel + 1, c :: rest, out, dotdot =>
    if c = '/' then
      cleanLoop rooted fuel rest out dotdot
    else if c = '.' ∧ (rest = [] ∨ rest.head? = some '/') then
      cleanLoop rooted fuel rest out dotdot
    else if c = '.' ∧ rest.head? = some '.' ∧
        (rest.tail = [] ∨ rest.tail.head? = some '/') then
      if dotdot < out.length then
        cleanLoop rooted fuel rest.tail (out.take (backtrack out dotdot (out.length - 1))) dotdot
      else if !rooted then
        let out1 := (if 0 < out.length then out ++ ['/'] else out) ++ ['.', '.']
        cleanLoop rooted fuel rest.tail out1 out1.length
      else
        cleanLoop rooted fuel rest.tail out dotdot
    else
      let out1 :=
        if (rooted ∧ out.length ≠ 1) ∨ (!rooted ∧ out.length ≠ 0) then out ++ ['/'] else out
      cleanLoop rooted fuel ((c :: rest).dropWhile (fun x => x != '/'))
        (out1 ++ (c :: rest).takeWhile (fun x => x != '/')) dotdot

/-- Go `path.Clean`. -/
def Clean (path : String) : String :=
  match path.data with
  | [] => "."
  | c :: rest =>
    let rooted := decide (c = '/')
    let out :=
      if rooted then cleanLoop true (rest.length + 1) rest ['/'] 1
      else cleanLoop false (rest.length + 2) (c :: rest) [] 0
    if out.length = 0 then "." else String.mk out

/-- The first result of Go `path.Split`: `path[:i+1]` for the last index `i` of a slash
(the empty string when there is none). -/
def SplitDir (path : String) : String :=
  String.mk (path.data.reverse.dropWhile (fun x => x != '/')).reverse

/-- Go `path.Dir` (imported as `path2`): `Clean` of the directory part of `Split`. -/
def Dir (path : String) : String := Clean (SplitDir path)

/-! ## `handleGetFile` and `listenOnSocket` -/

/-- The function `handleGetFile`.  The deferred `pufferpanel.Close(data.Contents)` only
closes the stream; it neither calls the server nor writes to the socket and is left out. -/
def handleGetFile {σ : Type} (d : Deps σ) (path : String) (editMode : Bool) : Act σ Unit := do
  let r ← invoke (Call.GetItem path) (d.GetItem path)
  match r.2 with
  | some err => WriteMessage (Message.FileList { FileListMsg.zero with Error := err })
  | none =>
    match r.1.FileList with
    | some l =>
      WriteMessage (Message.FileList { FileListMsg.zero with FileList := some l, CurrentPath := path })
    | none =>
      match r.1.Contents with
      | some bytes =>
        if editMode ∧ r.1.ContentLength < d.WebSocketFileLimit then
          WriteMessage (Message.FileList
            { FileListMsg.zero with Contents := some bytes, Filename := r.1.Name })
        else
          WriteMessage (Message.FileList { FileListMsg.zero with Url := path, Filename := r.1.Name })
      | none => pure ()

/-- The expression `ok && editMode` after `editMode, ok := mapping["edit"].(bool)`. -/
def editFlag (mapping : Mapping) : Bool :=
  match (mapping.get "edit").asBool with
  | some b => b
  | none => false

/-- The body of `case "file"` of `listenOnSocket`. -/
def handleFile {σ : Type} (d : Deps σ) (scopes : List Scope) (mapping : Mapping) : Act σ Unit :=
  match (mapping.get "action").asString with
  | none => pure ()
  | some action =>
    match (mapping.get "path").asString with
    | none => pure ()
    | some path =>
      let a := d.ToLower action
      if a = "get" then
        if !d.ContainsScope scopes Scope.ServerFileGet then pure ()
        else handleGetFile d path (editFlag mapping)
      else if a = "delete" then
        if !d.ContainsScope scopes Scope.ServerFileEdit then pure ()
        else do
          let err ← invoke (Call.DeleteItem path) (d.DeleteItem path)
          match err with
          | some e => WriteMessage (Message.FileList { FileListMsg.zero with Error := e })
          | none => handleGetFile d (Dir path) false
      else if a = "create" then
        if !d.ContainsScope scopes Scope.ServerFileEdit then pure ()
        else do
          let err ← invoke (Call.CreateFolder path) (d.CreateFolder path)
          match err with
          | some e => WriteMessage (Message.FileList { FileListMsg.zero with Error := e })
          | none => handleGetFile d path false
      else pure ()

/-- The body of the `for` loop of `listenOnSocket` once a text frame has been decoded into
`mapping`: the switch on the lowercased `type` field. -/
def dispatch {σ : Type} (d : Deps σ) (scopes : List Scope) (mapping : Mapping) : Act σ Unit :=
  match (mapping.get "type").asString with
  | none => logError LogLine.typeNotString
  | some message =>
    let t := d.ToLower message
    if t = "replay" then
      if d.ContainsScope scopes Scope.ServerLogs then do
        let r ← invoke Call.GetConsole d.GetConsole
        WriteMessage (Message.Console r.1)
      else pure ()
    else if t = "stat" then
      if d.ContainsScope scopes Scope.ServerStat then do
        let r ← invoke Call.GetStats d.GetStats
        match r.2 with
        | some _ => WriteMessage (Message.Stat { Cpu := 0, Memory := 0 })
        | none => WriteMessage (Message.Stat { Cpu := r.1.Cpu, Memory := r.1.Memory })
      else pure ()
    else if t = "status" then
      if d.ContainsScope scopes Scope.ServerStatus then do
        let r ← invoke Call.IsRunning d.IsRunning
        let running := match r.2 with
          | some _ => false
          | none => r.1
        WriteMessage (Message.Status { Running := running, Installing := false })
      else pure ()
    else if t = "start" then
      if d.ContainsScope scopes Scope.ServerStart then do
        let _ ← invoke Call.Start d.Start
        pure ()
      else pure ()
    else if t = "stop" then
      if d.ContainsScope scopes Scope.ServerStop then do
        let _ ← invoke Call.Stop d.Stop
        pure ()
      else pure ()
    else if t = "install" then
      if d.ContainsScope scopes Scope.ServerInstall then do
        let _ ← invoke Call.Install d.Install
        pure ()
      else pure ()
    else if t = "kill" then
      if d.ContainsScope scopes Scope.ServerKill then do
        let _ ← invoke Call.Kill d.Kill
        pure ()
      else pure ()
    else if t = "reload" then
      if d.ContainsScope scopes Scope.ServerReload then do
        let _ ← invoke Call.Reload d.Reload
        pure ()
      else pure ()
    else if t = "ping" then
      WriteMessage Message.Pong
    else if t = "console" then
      if d.ContainsScope scopes Scope.ServerSendCommand then
        match (mapping.get "command").asString with
        | some cmd => do
          let r ← invoke Call.IsRunning d.IsRunning
          if r.1 then do
            let _ ← invoke (Call.ExecuteInMainProcess cmd) (d.ExecuteInMainProcess cmd)
            pure ()
          else pure ()
        | none => pure ()
      else pure ()
    else if t = "file" then
      handleFile d scopes mapping
    else
      WriteJSON [("error", "unknown command")]

/-- One result of `conn.ReadMessage()`: a text frame together with what `json.Unmarshal`
makes of its payload (`none` when decoding fails), a frame of another type, or an error. -/
inductive Recv where
  | text (decoded : Option Mapping)
  | nonText
  | error

/-- The function `listenOnSocket` run on the receive results the connection delivers, from
server state `s`: the final server state and the events in program order.  A fault raised
while a frame is handled unwinds to the deferred `recover`, which logs it, and the function
returns.  When the list is exhausted nothing more arrives and the model stops. -/
def listenOnSocket {σ : Type} (d : Deps σ) (scopes : List Scope) : List Recv → σ → σ × List Event
  | [], s => (s, [])
  | Recv.error :: _, s => (s, [Event.log LogLine.readError])
  | Recv.nonText :: rest, s => listenOnSocket d scopes rest s
  | Recv.text none :: rest, s =>
    let r := listenOnSocket d scopes rest s
    (r.1, Event.log LogLine.decodeError :: r.2)
  | Recv.text (some mapping) :: rest, s =>
    match dispatch d scopes mapping s with
    | ⟨some _, s1, tr⟩ =>
      let r := listenOnSocket d scopes rest s1
      (r.1, tr ++ r.2)
    | ⟨none, s1, tr⟩ => (s1, tr ++ [Event.log LogLine.recovered])

/-! ## A concrete server for evaluating the dispatcher -/

/-- Lifecycle phases of the example server. -/
inductive Phase where
  | Stopped
  | Installing
  | Running
  | Crashed
  deriving DecidableEq, Repr

/-- State of the example server: its phase, its storage (each path with `none` for a
directory or the bytes of a file) and the commands its main process has received. -/
structure Demo where
  phase : Phase
  entries : List (String × Option (List Nat))
  stdin : List String
  deriving DecidableEq, Repr

/-- Lowercasing of the ASCII letters, on which Go `strings.ToLower` agrees. -/
def asciiLower (s : String) : String := String.mk (s.data.map Char.toLower)

/-- Last element of a slash-separated path. -/
def baseName (path : String) : String :=
  String.mk (path.data.reverse.takeWhile (fun x => x != '/')).reverse

/-- The example server: a process that runs only in phase `Running`, whose inspection
fails in phase `Crashed`, over a storage addressed by cleaned paths. -/
def demoDeps : Deps Demo where
  ToLower := asciiLower
  ContainsScope := fun scopes sc => scopes.contains sc
  WebSocketFileLimit := 4
  GetConsole := fun s =>
    if s.phase = Phase.Crashed then OpResult.ret ([], some "console unavailable") s
    else OpResult.ret (["Server started"], none) s
  GetStats := fun s =>
    if s.phase = Phase.Running then OpResult.ret ({ Cpu := 12, Memory := 512 }, none) s
    else OpResult.ret ({ Cpu := 0, Memory := 0 }, some "server offline") s
  IsRunning := fun s =>
    if s.phase = Phase.Crashed then OpResult.ret (false, some "inspect failed") s
    else OpResult.ret (decide (s.phase = Phase.Running), none) s
  Start := fun s =>
    if s.phase = Phase.Stopped ∨ s.phase = Phase.Crashed then
      OpResult.ret none { s with phase := Phase.Running }
    else OpResult.ret none s
  Stop := fun s =>
    if s.phase = Phase.Running then OpResult.ret none { s with phase := Phase.Stopped }
    else OpResult.ret none s
  Install := fun s =>
    if s.phase = Phase.Stopped then OpResult.ret none { s with phase := Phase.Installing }
    else OpResult.ret none s
  Kill := fun s => OpResult.ret none { s with phase := Phase.Stopped }
  Reload := fun s => OpResult.ret none s
  ExecuteInMainProcess := fun cmd s =>
    if s.phase = Phase.Running then OpResult.ret none { s with stdin := s.stdin ++ [cmd] }
    else OpResult.ret (some "server offline") s
  GetItem := fun path s =>
    match s.entries.lookup (Clean path) with
    | some none =>
      OpResult.ret
        ({ Contents := none, ContentLength := 0, Name := baseName (Clean path),
           FileList := some ((s.entries.filter
             (fun e => e.1 != Clean path && Dir e.1 == Clean path)).map
             (fun e => baseName e.1)) }, none) s
    | some (some bytes) =>
      OpResult.ret
        ({ Contents := some bytes, ContentLength := bytes.length,
           Name := baseName (Clean path), FileList := none }, none) s
    | none =>
      OpResult.ret
        ({ Contents := none, ContentLength := 0, Name := "", FileList := none },
          some "no such file or directory") s
  DeleteItem := fun path s =>
    match s.entries.lookup (Clean path) with
    | some _ =>
      OpResult.ret none { s with entries := s.entries.filter (fun e => e.1 != Clean path) }
    | none => OpResult.ret (some "no such file or directory") s
  CreateFolder := fun path s =>
    match s.entries.lookup (Clean path) with
    | some _ => OpResult.ret (some "file exists") s
    | none => OpResult.ret none { s with entries := s.entries ++ [(Clean path, none)] }

/-- The example server with a `Start` that raises a fault. -/
def faultyDeps : Deps Demo := { demoDeps with Start := fun s => OpResult.fault s }

/-- The example server with an `IsRunning` that returns `true` together with an error. -/
def staleDeps : Deps Demo :=
  { demoDeps with IsRunning := fun s => OpResult.ret (true, some "inspect failed") s }

/-- The example storage: directories `/`, `/a`, `/a/b` and two files. -/
def demoEntries : List (String × Option (List Nat)) :=
  [("/", none), ("/a", none), ("/a/b", none), ("/a/small.txt", some [104, 105]),
   ("/a/big.bin", some [1, 2, 3, 4, 5, 6])]

/-- The example server in a given phase. -/
def demoIn (p : Phase) : Demo := { phase := p, entries := demoEntries, stdin := [] }

/-- Every scope `listenOnSocket` asks for. -/
def allScopes : List Scope :=
  [Scope.ServerLogs, Scope.ServerStat, Scope.ServerStatus, Scope.ServerStart, Scope.ServerStop,
   Scope.ServerInstall, Scope.ServerKill, Scope.ServerReload, Scope.ServerSendCommand,
   Scope.ServerFileGet, Scope.ServerFileEdit]

/-- The decoded frame with just a `type` field. -/
def frame (type : String) : Mapping := [("type", JValue.str type)]

/-- The decoded frame of type `file` with an action and a path. -/
def fileFrame (action path : String) : Mapping :=
  [("type", JValue.str "file"), ("action", JValue.str action), ("path", JValue.str path)]

/-! ## Statements taken from the specification -/

/-- The scope the specification requires for a command, by lowercased `type` and, for
`file`, lowercased `action`. -/
def requiredScope (t : String) (action : Option String) : Option Scope :=
  if t = "replay" then some Scope.ServerLogs
  else if t = "stat" then some Scope.ServerStat
  else if t = "status" then some Scope.ServerStatus
  else if t = "start" then some Scope.ServerStart
  else if t = "stop" then some Scope.ServerStop
  else if t = "install" then some Scope.ServerInstall
  else if t = "kill" then some Scope.ServerKill
  else if t = "reload" then some Scope.ServerReload
  else if t = "console" then some Scope.ServerSendCommand
  else if t = "file" then
    if action = some "get" then some Scope.ServerFileGet
    else if action = some "delete" then some Scope.ServerFileEdit
    else if action = some "create" then some Scope.ServerFileEdit
    else none
  else none

/-- The `error` field of a response frame: the `Error` of a `FileList` message (serialised
only when non-empty) or the `error` entry of a JSON object; the other messages have none. -/
def errorField : Event → Option String
  | Event.WriteMessage (Message.FileList m) => if m.Error = "" then none else some m.Error
  | Event.WriteJSON obj => obj.lookup "error"
  | _ => none

/-- The fixed command set of the specification. -/
def knownCommands : List String :=
  ["replay", "stat", "status", "start", "stop", "install", "kill", "reload", "ping",
   "console", "file"]

/-- The response `{"error":"unknown command"}`. -/
def unknownCommand : Event := Event.WriteJSON [("error", "unknown command")]

/-- The receive results before the first receive error. -/
def beforeError : List Recv → List Recv
  | [] => []
  | Recv.error :: _ => []
  | r :: rest => r :: beforeError rest

/-- The decoded text frames among receive results, in arrival order; frames of another type
and text frames that do not decode are left out. -/
def decodedFrames : List Recv → List Mapping
  | [] => []
  | Recv.text (some mapping) :: rest => mapping :: decodedFrames rest
  | _ :: rest => decodedFrames rest

/-- The events of handling every frame in turn, each from the server state the previous one
left, as the specification describes the loop: a fault in one frame does not keep the next
ones from being handled. -/
def framesAll {σ : Type} (d : Deps σ) (scopes : List Scope) : List Mapping → σ → List Event
  | [], _ => []
  | mapping :: rest, s =>
    (dispatch d scopes mapping s).trace ++ framesAll d scopes rest (dispatch d scopes mapping s).server

/-- The events of handling the frames in turn up to and including the first frame whose
handling raises a fault. -/
def framesUntilFault {σ : Type} (d : Deps σ) (scopes : List Scope) :
    List Mapping → σ → List Event
  | [], _ => []
  | mapping :: rest, s =>
    match dispatch d scopes mapping s with
    | ⟨some _, s1, tr⟩ => tr ++ framesUntilFault d scopes rest s1
    | ⟨none, _, tr⟩ => tr

/-- A piece of dispatcher code that never calls `conn.WriteJSON`. -/
def NoJSON {σ α : Type} (m : Act σ α) : Prop :=
  ∀ s, ∀ e ∈ (m s).trace, ∀ obj, e ≠ Event.WriteJSON obj

/-! # Theorems -/

/-! ## The fuel of `cleanLoop` -/

/-- The loop of `path.Clean` does not depend on its fuel once the fuel covers the bytes left
to read: the embedding never stops for lack of fuel. -/
theorem cleanLoop_fuel (rooted : Bool) (n m : Nat) (rest out : List Char) (dotdot : Nat)
    (hn : rest.length ≤ n) (hm : rest.length ≤ m) :
    cleanLoop rooted n rest out dotdot = cleanLoop rooted m rest out dotdot := by
  induction n generalizing m rest out dotdot with
  | zero =>
    have : rest = [] := List.length_eq_zero.mp (Nat.le_zero.mp hn)
    subst this
    cases m <;> simp [cleanLoop]
  | succ n ih =>
    cases rest with
    | nil => cases m <;> simp [cleanLoop]
    | cons c t =>
      cases m with
      | zero => simp at hm
      | succ m =>
        have hn1 : t.length ≤ n := by simpa using hn
        have hm1 : t.length ≤ m := by simpa using hm
        have htn : t.tail.length ≤ n := by simp; omega
        have htm : t.tail.length ≤ m := by simp; omega
        have hdrop : c ≠ '/' → ((c :: t).dropWhile (fun x => x != '/')).length ≤ t.length := by
          intro hc
          have : (c :: t).dropWhile (fun x => x != '/') = t.dropWhile (fun x => x != '/') := by
            rw [List.dropWhile_cons]
            simp [hc]
          rw [this]
          exact (List.dropWhile_sublist _).length_le
        simp only [cleanLoop]
        split_ifs with h1 <;>
          first
          | exact ih _ _ _ _ hn1 hm1
          | exact ih _ _ _ _ htn htm
          | exact ih _ _ _ _ (le_trans (hdrop h1) hn1) (le_trans (hdrop h1) hm1)

/-- The directory part `path.Split` gives for a path that ends in a slash is the whole
path. -/
theorem SplitDir_trailing_slash (p : String) : SplitDir (p ++ "/") = p ++ "/" := by
  simp [SplitDir, List.dropWhile_cons]
  rfl

/-- For a path that ends in a slash `path.Dir` drops no element: it only cleans the path. -/
theorem Dir_trailing_slash (p : String) : Dir (p ++ "/") = Clean (p ++ "/") := by
  unfold Dir
  rw [SplitDir_trailing_slash]

/-! ## The dispatcher -/

/-- C1: a decoded text frame whose command requires a scope that `ContainsScope` does not
find among the granted scopes is handled without any effect: the frame's handling returns
normally, the server state is untouched and the event list is empty, so no Server or
Environment method is invoked and no response frame is written. -/
theorem missing_scope_drops {σ : Type} (d : Deps σ) (scopes : List Scope) (mapping : Mapping)
    (message : String) (sc : Scope) (s : σ)
    (htype : (mapping.get "type").asString = some message)
    (hreq : requiredScope (d.ToLower message)
      (((mapping.get "action").asString).map d.ToLower) = some sc)
    (hscope : d.ContainsScope scopes sc = false) :
    dispatch d scopes mapping s = ⟨some (), s, []⟩ := by
  by_cases h0 : d.ToLower message = "replay"
  · simp [requiredScope, h0] at hreq; subst hreq
    simp [dispatch, htype, h0, hscope, pure, Act.pure]
  by_cases h1 : d.ToLower message = "stat"
  · simp [requiredScope, h1] at hreq; subst hreq
    simp [dispatch, htype, h1, hscope, pure, Act.pure]
  by_cases h2 : d.ToLower message = "status"
  · simp [requiredScope, h2] at hreq; subst hreq
    simp [dispatch, htype, h2, hscope, pure, Act.pure]
  by_cases h3 : d.ToLower message = "start"
  · simp [requiredScope, h3] at hreq; subst hreq
    simp [dispatch, htype, h3, hscope, pure, Act.pure]
  by_cases h4 : d.ToLower message = "stop"
  · simp [requiredScope, h4] at hreq; subst hreq
    simp [dispatch, htype, h4, hscope, pure, Act.pure]
  by_cases h5 : d.ToLower message = "install"
  · simp [requiredScope, h5] at hreq; subst hreq
    simp [dispatch, htype, h5, hscope, pure, Act.pure]
  by_cases h6 : d.ToLower message = "kill"
  · simp [requiredScope, h6] at hreq; subst hreq
    simp [dispatch, htype, h6, hscope, pure, Act.pure]
  by_cases h7 : d.ToLower message = "reload"
  · simp [requiredScope, h7] at hreq; subst hreq
    simp [dispatch, htype, h7, hscope, pure, Act.pure]
  by_cases h8 : d.ToLower message = "console"
  · simp [requiredScope, h8] at hreq; subst hreq
    simp [dispatch, htype, h8, hscope, pure, Act.pure]
  by_cases hf : d.ToLower message = "file"
  · cases ha : (mapping.get "action").asString with
    | none => simp [requiredScope, hf, ha] at hreq
    | some action =>
      cases hp : (mapping.get "path").asString with
      | none => simp [dispatch, htype, hf, handleFile, ha, hp, pure, Act.pure]
      | some path =>
        simp only [requiredScope, hf, ha, Option.map_some', Option.some.injEq] at hreq
        by_cases g1 : d.ToLower action = "get"
        · simp [g1] at hreq; subst hreq
          simp [dispatch, htype, hf, handleFile, ha, hp, g1, hscope, pure, Act.pure]
        by_cases g2 : d.ToLower action = "delete"
        · simp [g2] at hreq; subst hreq
          simp [dispatch, htype, hf, handleFile, ha, hp, g2, hscope, pure, Act.pure]
        by_cases g3 : d.ToLower action = "create"
        · simp [g3] at hreq; subst hreq
          simp [dispatch, htype, hf, handleFile, ha, hp, g3, hscope, pure, Act.pure]
        simp [g1, g2, g3] at hreq
  simp [requiredScope, h0, h1, h2, h3, h4, h5, h6, h7, h8, hf] at hreq


/-- Witness for C1: a `file` delete frame on a connection holding only `ServerFileGet`. -/
theorem missing_scope_drops_witness :
    ((fileFrame "Delete" "/a/b").get "type").asString = some "file" ∧
    requiredScope (demoDeps.ToLower "file")
      ((((fileFrame "Delete" "/a/b").get "action").asString).map demoDeps.ToLower)
        = some Scope.ServerFileEdit ∧
    demoDeps.ContainsScope [Scope.ServerFileGet] Scope.ServerFileEdit = false ∧
    dispatch demoDeps [Scope.ServerFileGet] (fileFrame "Delete" "/a/b") (demoIn Phase.Running)
      = ⟨some (), demoIn Phase.Running, []⟩ :=
  ⟨by decide, by decide, by decide,
    missing_scope_drops demoDeps [Scope.ServerFileGet] (fileFrame "Delete" "/a/b") "file"
      Scope.ServerFileEdit (demoIn Phase.Running) (by decide) (by decide) (by decide)⟩

/-- C8: a `stat` frame on a connection holding `ServerStat`, when `GetStats` returns, is
answered by exactly one frame, a `Stat` message: with `cpu = 0` and `memory = 0` when
`GetStats` returned an error, with the returned values otherwise. -/
theorem stat_always_answers {σ : Type} (d : Deps σ) (scopes : List Scope) (mapping : Mapping)
    (message : String) (s s1 : σ) (r : Stats) (err : Option GoError)
    (htype : (mapping.get "type").asString = some message)
    (hstat : d.ToLower message = "stat")
    (hscope : d.ContainsScope scopes Scope.ServerStat = true)
    (hret : d.GetStats s = OpResult.ret (r, err) s1) :
    (err ≠ none → dispatch d scopes mapping s = ⟨some (), s1,
      [Event.call Call.GetStats, Event.WriteMessage (Message.Stat { Cpu := 0, Memory := 0 })]⟩) ∧
    (err = none → dispatch d scopes mapping s = ⟨some (), s1,
      [Event.call Call.GetStats,
       Event.WriteMessage (Message.Stat { Cpu := r.Cpu, Memory := r.Memory })]⟩) := by
  constructor
  · intro he
    cases err with
    | none => exact absurd rfl he
    | some e =>
      simp [dispatch, htype, hstat, hscope, bind, Act.bind, invoke, hret, WriteMessage]
  · intro he
    subst he
    simp [dispatch, htype, hstat, hscope, bind, Act.bind, invoke, hret, WriteMessage]

/-- Witness for C8: the example server offline (`GetStats` fails) and running. -/
theorem stat_always_answers_witness :
    (dispatch demoDeps allScopes (frame "stat") (demoIn Phase.Stopped) = ⟨some (),
      demoIn Phase.Stopped,
      [Event.call Call.GetStats, Event.WriteMessage (Message.Stat { Cpu := 0, Memory := 0 })]⟩) ∧
    (dispatch demoDeps allScopes (frame "Stat") (demoIn Phase.Running) = ⟨some (),
      demoIn Phase.Running,
      [Event.call Call.GetStats,
       Event.WriteMessage (Message.Stat { Cpu := 12, Memory := 512 })]⟩) :=
  ⟨(stat_always_answers demoDeps allScopes (frame "stat") "stat" (demoIn Phase.Stopped)
      (demoIn Phase.Stopped) { Cpu := 0, Memory := 0 } (some "server offline")
      (by decide) (by decide) (by decide) (by rfl)).1 (by decide),
   (stat_always_answers demoDeps allScopes (frame "Stat") "Stat" (demoIn Phase.Running)
      (demoIn Phase.Running) { Cpu := 12, Memory := 512 } none
      (by decide) (by decide) (by decide) (by rfl)).2 rfl⟩

/-- What the `console` case does: it never writes a response frame, whatever the scopes and
whatever the server does.  When the frame carries a string command, the connection holds
`ServerSendCommand` and `IsRunning` returns `(run, err)`, only `run` decides: the command
reaches `ExecuteInMainProcess` exactly when `run` is `true`, whatever `err` is, and when `run`
is `false` the only effect is the `IsRunning` call. -/
theorem console_executes_iff_run {σ : Type} (d : Deps σ) (scopes : List Scope)
    (mapping : Mapping) (message : String) (s : σ)
    (htype : (mapping.get "type").asString = some message)
    (hconsole : d.ToLower message = "console") :
    responses (dispatch d scopes mapping s).trace = [] ∧
    ∀ (cmd : String) (s1 : σ) (run : Bool) (err : Option GoError),
      (mapping.get "command").asString = some cmd →
      d.ContainsScope scopes Scope.ServerSendCommand = true →
      d.IsRunning s = OpResult.ret (run, err) s1 →
      (∀ c, Event.call (Call.ExecuteInMainProcess c) ∈ (dispatch d scopes mapping s).trace →
        c = cmd ∧ run = true) ∧
      (run = false →
        dispatch d scopes mapping s = ⟨some (), s1, [Event.call Call.IsRunning]⟩) ∧
      (run = true → (dispatch d scopes mapping s).trace =
        [Event.call Call.IsRunning, Event.call (Call.ExecuteInMainProcess cmd)]) := by
  constructor
  · cases hscope : d.ContainsScope scopes Scope.ServerSendCommand with
    | false => simp [dispatch, htype, hconsole, hscope, pure, Act.pure, responses]
    | true =>
      cases hcmd : (mapping.get "command").asString with
      | none => simp [dispatch, htype, hconsole, hscope, hcmd, pure, Act.pure, responses]
      | some cmd =>
        cases hret : d.IsRunning s with
        | fault s1 =>
          simp [dispatch, htype, hconsole, hscope, hcmd, bind, Act.bind, invoke, hret,
            responses, Event.isWrite]
        | ret v s1 =>
          obtain ⟨run, err⟩ := v
          cases run with
          | false =>
            simp [dispatch, htype, hconsole, hscope, hcmd, bind, Act.bind, invoke, hret, pure,
              Act.pure, responses, Event.isWrite]
          | true =>
            cases hx : d.ExecuteInMainProcess cmd s1 <;>
              simp [dispatch, htype, hconsole, hscope, hcmd, bind, Act.bind, invoke, hret, hx,
                pure, Act.pure, responses, Event.isWrite]
  · intro cmd s1 run err hcmd hscope hret
    cases run with
    | false =>
      simp [dispatch, htype, hconsole, hscope, hcmd, bind, Act.bind, invoke, hret, pure,
        Act.pure]
    | true =>
      cases hx : d.ExecuteInMainProcess cmd s1 <;>
        simp [dispatch, htype, hconsole, hscope, hcmd, bind, Act.bind, invoke, hret, hx, pure,
          Act.pure]

/-- The `console` case on the example server stopped, crashed (`IsRunning` returns `false`
with an error) and running. -/
theorem console_executes_iff_run_examples :
    (dispatch demoDeps allScopes (("command", JValue.str "say hi") :: frame "console")
      (demoIn Phase.Stopped) = ⟨some (), demoIn Phase.Stopped, [Event.call Call.IsRunning]⟩) ∧
    (dispatch demoDeps allScopes (("command", JValue.str "say hi") :: frame "console")
      (demoIn Phase.Crashed) = ⟨some (), demoIn Phase.Crashed, [Event.call Call.IsRunning]⟩) ∧
    ((dispatch demoDeps allScopes (("command", JValue.str "say hi") :: frame "console")
      (demoIn Phase.Running)).trace =
      [Event.call Call.IsRunning, Event.call (Call.ExecuteInMainProcess "say hi")]) :=
  ⟨((console_executes_iff_run demoDeps allScopes
      (("command", JValue.str "say hi") :: frame "console") "console" (demoIn Phase.Stopped)
      (by decide) (by decide)).2 "say hi" (demoIn Phase.Stopped) false none
      (by decide) (by decide) (by rfl)).2.1 rfl,
   ((console_executes_iff_run demoDeps allScopes
      (("command", JValue.str "say hi") :: frame "console") "console" (demoIn Phase.Crashed)
      (by decide) (by decide)).2 "say hi" (demoIn Phase.Crashed) false (some "inspect failed")
      (by decide) (by decide) (by rfl)).2.1 rfl,
   ((console_executes_iff_run demoDeps allScopes
      (("command", JValue.str "say hi") :: frame "console") "console" (demoIn Phase.Running)
      (by decide) (by decide)).2 "say hi" (demoIn Phase.Running) true none
      (by decide) (by decide) (by rfl)).2.2 rfl⟩

/-- C5 at an `IsRunning` that returns `true` together with an error: the `console` case
discards the error, so the command `say hi` is passed to `ExecuteInMainProcess` although
`IsRunning` returned an error, and no response frame is written; the `status` case, handed
the same result of `IsRunning`, counts the error as not running and reports
`Running = false`. -/
theorem console_executes_despite_error :
    staleDeps.IsRunning (demoIn Phase.Crashed) =
      OpResult.ret (true, some "inspect failed") (demoIn Phase.Crashed) ∧
    (dispatch staleDeps allScopes (("command", JValue.str "say hi") :: frame "console")
      (demoIn Phase.Crashed)).trace =
      [Event.call Call.IsRunning, Event.call (Call.ExecuteInMainProcess "say hi")] ∧
    responses (dispatch staleDeps allScopes (("command", JValue.str "say hi") :: frame "console")
      (demoIn Phase.Crashed)).trace = [] ∧
    (dispatch staleDeps allScopes (frame "status") (demoIn Phase.Crashed)).trace =
      [Event.call Call.IsRunning,
       Event.WriteMessage (Message.Status { Running := false, Installing := false })] := by
  refine ⟨by decide, by decide, by decide, by decide⟩

/-- What the `status` case does: on a connection holding `ServerStatus`, when `IsRunning`
returns `(run, err)`, the one frame written is a `Status` message whose `Running` is `run`
when no error was returned and `false` otherwise, and whose `Installing` is `false` whatever
state the server is in. -/
theorem status_reports_running_only {σ : Type} (d : Deps σ) (scopes : List Scope)
    (mapping : Mapping) (message : String) (s s1 : σ) (run : Bool) (err : Option GoError)
    (htype : (mapping.get "type").asString = some message)
    (hstatus : d.ToLower message = "status")
    (hscope : d.ContainsScope scopes Scope.ServerStatus = true)
    (hret : d.IsRunning s = OpResult.ret (run, err) s1) :
    dispatch d scopes mapping s = ⟨some (), s1,
      [Event.call Call.IsRunning,
       Event.WriteMessage (Message.Status
         { Running := err.isNone && run, Installing := false })]⟩ := by
  cases err <;>
    simp [dispatch, htype, hstatus, hscope, bind, Act.bind, invoke, hret, WriteMessage]

/-- The `status` case on the example server while it is installing. -/
theorem status_reports_running_only_example :
    dispatch demoDeps allScopes (frame "status") (demoIn Phase.Installing) = ⟨some (),
      demoIn Phase.Installing,
      [Event.call Call.IsRunning,
       Event.WriteMessage (Message.Status { Running := false, Installing := false })]⟩ :=
  status_reports_running_only demoDeps allScopes (frame "status") "status"
    (demoIn Phase.Installing) (demoIn Phase.Installing) false none
    (by decide) (by decide) (by decide) (by rfl)

/-- C4 at a status request during an install: on the example server an `install` frame
starts an install, the server is in phase `Installing` when the following `status` frame is
handled, and the `Status` payload written has `Installing = false`; no `Status` with
`Installing = true` is written. -/
theorem status_during_install_not_installing :
    listenOnSocket demoDeps allScopes
      [Recv.text (some (frame "install")), Recv.text (some (frame "status"))]
      (demoIn Phase.Stopped) =
    (demoIn Phase.Installing,
      [Event.call Call.Install, Event.call Call.IsRunning,
       Event.WriteMessage (Message.Status { Running := false, Installing := false })]) ∧
    ¬ (∃ running, Event.WriteMessage (Message.Status { Running := running, Installing := true }) ∈
      (listenOnSocket demoDeps allScopes
        [Recv.text (some (frame "install")), Recv.text (some (frame "status"))]
        (demoIn Phase.Stopped)).2) := by
  constructor
  · decide
  · decide

/-- Counterexample to C3: on the example server in phase `Stopped`, `GetStats` returns the
error `server offline`; the `stat` frame is answered by the `Stat` message with zeros, and no
frame written has an error field. -/
theorem stat_failure_not_an_error_payload :
    demoDeps.GetStats (demoIn Phase.Stopped) =
      OpResult.ret ({ Cpu := 0, Memory := 0 }, some "server offline") (demoIn Phase.Stopped) ∧
    (dispatch demoDeps allScopes (frame "stat") (demoIn Phase.Stopped)).trace =
      [Event.call Call.GetStats, Event.WriteMessage (Message.Stat { Cpu := 0, Memory := 0 })] ∧
    ¬ (∃ e ∈ (dispatch demoDeps allScopes (frame "stat") (demoIn Phase.Stopped)).trace,
      errorField e = some "server offline") := by
  refine ⟨rfl, by decide, by decide⟩

/-- C3, as the code has it: when the connection holds the required scope and the underlying
call returns an error, a `stat` frame is answered by a `Stat` message with zeros, a `status`
frame by a `Status` message with `Running = false`, a `replay` frame by a `Console` message
with the logs `GetConsole` returned; only a `file` get is answered by a message that carries
the error, a `FileList` whose `Error` is the error text and whose other fields are unset. -/
theorem read_failures_by_command {σ : Type} (d : Deps σ) (scopes : List Scope)
    (mapping : Mapping) (message : String) (s s1 : σ) (err : GoError)
    (htype : (mapping.get "type").asString = some message) :
    (∀ r : Stats, d.ToLower message = "stat" →
      d.ContainsScope scopes Scope.ServerStat = true →
      d.GetStats s = OpResult.ret (r, some err) s1 →
      dispatch d scopes mapping s = ⟨some (), s1,
        [Event.call Call.GetStats,
         Event.WriteMessage (Message.Stat { Cpu := 0, Memory := 0 })]⟩) ∧
    (∀ run : Bool, d.ToLower message = "status" →
      d.ContainsScope scopes Scope.ServerStatus = true →
      d.IsRunning s = OpResult.ret (run, some err) s1 →
      dispatch d scopes mapping s = ⟨some (), s1,
        [Event.call Call.IsRunning,
         Event.WriteMessage (Message.Status { Running := false, Installing := false })]⟩) ∧
    (∀ logs : List String, d.ToLower message = "replay" →
      d.ContainsScope scopes Scope.ServerLogs = true →
      d.GetConsole s = OpResult.ret (logs, some err) s1 →
      dispatch d scopes mapping s = ⟨some (), s1,
        [Event.call Call.GetConsole, Event.WriteMessage (Message.Console logs)]⟩) ∧
    (∀ (action path : String) (data : FileData), d.ToLower message = "file" →
      (mapping.get "action").asString = some action → d.ToLower action = "get" →
      (mapping.get "path").asString = some path →
      d.ContainsScope scopes Scope.ServerFileGet = true →
      d.GetItem path s = OpResult.ret (data, some err) s1 →
      dispatch d scopes mapping s = ⟨some (), s1,
        [Event.call (Call.GetItem path),
         Event.WriteMessage (Message.FileList { FileListMsg.zero with Error := err })]⟩) := by
  refine ⟨?_, ?_, ?_, ?_⟩
  · intro r hlow hscope hret
    simp [dispatch, htype, hlow, hscope, bind, Act.bind, invoke, hret, WriteMessage]
  · intro run hlow hscope hret
    simp [dispatch, htype, hlow, hscope, bind, Act.bind, invoke, hret, WriteMessage]
  · intro logs hlow hscope hret
    simp [dispatch, htype, hlow, hscope, bind, Act.bind, invoke, hret, WriteMessage]
  · intro action path data hlow haction hget hpath hscope hret
    simp [dispatch, htype, hlow, handleFile, haction, hget, hpath, hscope, handleGetFile, bind,
      Act.bind, invoke, hret, WriteMessage]

/-- Witness for C3 as amended: the four read commands on the crashed example server, whose
`GetStats`, `IsRunning` and `GetConsole` fail, and a `file` get of a path that does not
exist. -/
theorem read_failures_by_command_witness :
    (dispatch demoDeps allScopes (frame "stat") (demoIn Phase.Crashed) = ⟨some (),
      demoIn Phase.Crashed,
      [Event.call Call.GetStats,
       Event.WriteMessage (Message.Stat { Cpu := 0, Memory := 0 })]⟩) ∧
    (dispatch demoDeps allScopes (frame "status") (demoIn Phase.Crashed) = ⟨some (),
      demoIn Phase.Crashed,
      [Event.call Call.IsRunning,
       Event.WriteMessage (Message.Status { Running := false, Installing := false })]⟩) ∧
    (dispatch demoDeps allScopes (frame "replay") (demoIn Phase.Crashed) = ⟨some (),
      demoIn Phase.Crashed,
      [Event.call Call.GetConsole, Event.WriteMessage (Message.Console [])]⟩) ∧
    (dispatch demoDeps allScopes (fileFrame "get" "/missing") (demoIn Phase.Crashed) = ⟨some (),
      demoIn Phase.Crashed,
      [Event.call (Call.GetItem "/missing"),
       Event.WriteMessage (Message.FileList
         { FileListMsg.zero with Error := "no such file or directory" })]⟩) :=
  ⟨(read_failures_by_command demoDeps allScopes (frame "stat") "stat" (demoIn Phase.Crashed)
      (demoIn Phase.Crashed) "server offline" (by decide)).1 { Cpu := 0, Memory := 0 }
      (by decide) (by decide) (by rfl),
   (read_failures_by_command demoDeps allScopes (frame "status") "status"
      (demoIn Phase.Crashed) (demoIn Phase.Crashed) "inspect failed" (by decide)).2.1 false
      (by decide) (by decide) (by rfl),
   (read_failures_by_command demoDeps allScopes (frame "replay") "replay"
      (demoIn Phase.Crashed) (demoIn Phase.Crashed) "console unavailable" (by decide)).2.2.1 []
      (by decide) (by decide) (by rfl),
   (read_failures_by_command demoDeps allScopes (fileFrame "get" "/missing") "file"
      (demoIn Phase.Crashed) (demoIn Phase.Crashed) "no such file or directory"
      (by decide)).2.2.2 "get" "/missing"
      { Contents := none, ContentLength := 0, Name := "", FileList := none }
      (by decide) (by decide) (by decide) (by decide) (by decide) (by rfl)⟩

/-- C9: a frame whose lowercased type is `file` and whose `action` or `path` field is missing
or not a string is handled without any effect, whatever the granted scopes: no response frame,
no `GetItem`, `DeleteItem` or `CreateFolder` call, the server state untouched, and the loop
goes on with the next frame. -/
theorem malformed_file_frame_dropped {σ : Type} (d : Deps σ) (scopes : List Scope)
    (mapping : Mapping) (message : String) (s : σ) (rest : List Recv)
    (htype : (mapping.get "type").asString = some message)
    (hfile : d.ToLower message = "file")
    (hbad : (mapping.get "action").asString = none ∨ (mapping.get "path").asString = none) :
    dispatch d scopes mapping s = ⟨some (), s, []⟩ ∧
    listenOnSocket d scopes (Recv.text (some mapping) :: rest) s =
      listenOnSocket d scopes rest s := by
  have h : dispatch d scopes mapping s = ⟨some (), s, []⟩ := by
    rcases hbad with ha | hp
    · simp [dispatch, htype, hfile, handleFile, ha, pure, Act.pure]
    · cases ha : (mapping.get "action").asString <;>
        simp [dispatch, htype, hfile, handleFile, ha, hp, pure, Act.pure]
  exact ⟨h, by simp [listenOnSocket, h]⟩

/-- Witness for C9: a `file` frame with an action but a numeric path, followed by a ping. -/
theorem malformed_file_frame_dropped_witness :
    dispatch demoDeps allScopes
      [("type", JValue.str "file"), ("action", JValue.str "delete"), ("path", JValue.number 7)]
      (demoIn Phase.Running) = ⟨some (), demoIn Phase.Running, []⟩ ∧
    listenOnSocket demoDeps allScopes
      (Recv.text (some [("type", JValue.str "file"), ("action", JValue.str "delete"),
        ("path", JValue.number 7)]) :: [Recv.text (some (frame "ping"))])
      (demoIn Phase.Running) =
    listenOnSocket demoDeps allScopes [Recv.text (some (frame "ping"))] (demoIn Phase.Running) :=
  malformed_file_frame_dropped demoDeps allScopes
    [("type", JValue.str "file"), ("action", JValue.str "delete"), ("path", JValue.number 7)]
    "file" (demoIn Phase.Running) [Recv.text (some (frame "ping"))]
    (by decide) (by decide) (Or.inr (by decide))

/-- The flag `ok && editMode` is set exactly when the frame carries `edit` as the boolean
`true`. -/
theorem editFlag_eq_true_iff (mapping : Mapping) :
    editFlag mapping = true ↔ (mapping.get "edit").asBool = some true := by
  unfold editFlag
  cases (mapping.get "edit").asBool <;> simp

/-- C6: for a `file` get on a connection holding `ServerFileGet` whose `GetItem` succeeds:
a directory listing is answered by a `FileList` with that listing and `CurrentPath` the
requested path, nothing else set, whatever the edit flag; a content stream of length `L`
(no listing) is answered by reference (`Url` the requested path and the file name, no
contents) whenever `L` is above the limit or the frame did not carry `edit` as boolean true,
and is inlined (the bytes and the file name, no url) exactly when the frame carried `edit`
as boolean true and `L` is below the limit. -/
theorem file_get_policy {σ : Type} (d : Deps σ) (scopes : List Scope) (mapping : Mapping)
    (message action path : String) (s s1 : σ) (data : FileData)
    (htype : (mapping.get "type").asString = some message)
    (hfile : d.ToLower message = "file")
    (haction : (mapping.get "action").asString = some action)
    (hget : d.ToLower action = "get")
    (hpath : (mapping.get "path").asString = some path)
    (hscope : d.ContainsScope scopes Scope.ServerFileGet = true)
    (hret : d.GetItem path s = OpResult.ret (data, none) s1) :
    (∀ l, data.FileList = some l →
      dispatch d scopes mapping s = ⟨some (), s1,
        [Event.call (Call.GetItem path),
         Event.WriteMessage (Message.FileList
           { FileListMsg.zero with FileList := some l, CurrentPath := path })]⟩) ∧
    (∀ bytes, data.FileList = none → data.Contents = some bytes →
      ((d.WebSocketFileLimit < data.ContentLength ∨ (mapping.get "edit").asBool ≠ some true) →
        dispatch d scopes mapping s = ⟨some (), s1,
          [Event.call (Call.GetItem path),
           Event.WriteMessage (Message.FileList
             { FileListMsg.zero with Url := path, Filename := data.Name })]⟩) ∧
      (dispatch d scopes mapping s = ⟨some (), s1,
          [Event.call (Call.GetItem path),
           Event.WriteMessage (Message.FileList
             { FileListMsg.zero with Contents := some bytes, Filename := data.Name })]⟩ ↔
        ((mapping.get "edit").asBool = some true ∧
          data.ContentLength < d.WebSocketFileLimit))) := by
  have hrun : dispatch d scopes mapping s =
      match handleGetFile d path (editFlag mapping) s with
      | ⟨v, s2, tr⟩ => ⟨v, s2, tr⟩ := by
    simp [dispatch, htype, hfile, handleFile, haction, hget, hpath, hscope]
  constructor
  · intro l hl
    simp [hrun, handleGetFile, bind, Act.bind, invoke, hret, hl, WriteMessage]
  · intro bytes hl hc
    have hedit := editFlag_eq_true_iff mapping
    constructor
    · intro h
      have hno : ¬ (editFlag mapping = true ∧ data.ContentLength < d.WebSocketFileLimit) := by
        rintro ⟨h1, h2⟩
        rcases h with h | h
        · omega
        · exact h (hedit.mp h1)
      simp [hrun, handleGetFile, bind, Act.bind, invoke, hret, hl, hc, WriteMessage, hno]
    · by_cases hin : editFlag mapping = true ∧ data.ContentLength < d.WebSocketFileLimit
      · have hin2 : (mapping.get "edit").asBool = some true ∧
            data.ContentLength < d.WebSocketFileLimit := ⟨hedit.mp hin.1, hin.2⟩
        simp [hrun, handleGetFile, bind, Act.bind, invoke, hret, hl, hc, WriteMessage, hin, hin2]
      · have hin2 : ¬ ((mapping.get "edit").asBool = some true ∧
            data.ContentLength < d.WebSocketFileLimit) := fun h => hin ⟨hedit.mpr h.1, h.2⟩
        simp [hrun, handleGetFile, bind, Act.bind, invoke, hret, hl, hc, WriteMessage, hin, hin2,
          FileListMsg.zero]

/-- Witness for C6: on the example server (limit 4 bytes) a directory requested in edit mode,
a 2-byte file requested without and with edit mode, and a 6-byte file requested in edit
mode. -/
theorem file_get_policy_witness :
    (dispatch demoDeps allScopes (("edit", JValue.bool true) :: fileFrame "get" "/a")
      (demoIn Phase.Stopped) = ⟨some (), demoIn Phase.Stopped,
        [Event.call (Call.GetItem "/a"),
         Event.WriteMessage (Message.FileList
           { FileListMsg.zero with
             FileList := some ["b", "small.txt", "big.bin"], CurrentPath := "/a" })]⟩) ∧
    (dispatch demoDeps allScopes (fileFrame "get" "/a/small.txt")
      (demoIn Phase.Stopped) = ⟨some (), demoIn Phase.Stopped,
        [Event.call (Call.GetItem "/a/small.txt"),
         Event.WriteMessage (Message.FileList
           { FileListMsg.zero with Url := "/a/small.txt", Filename := "small.txt" })]⟩) ∧
    (dispatch demoDeps allScopes (("edit", JValue.bool true) :: fileFrame "get" "/a/small.txt")
      (demoIn Phase.Stopped) = ⟨some (), demoIn Phase.Stopped,
        [Event.call (Call.GetItem "/a/small.txt"),
         Event.WriteMessage (Message.FileList
           { FileListMsg.zero with Contents := some [104, 105], Filename := "small.txt" })]⟩) ∧
    (dispatch demoDeps allScopes (("edit", JValue.bool true) :: fileFrame "get" "/a/big.bin")
      (demoIn Phase.Stopped) = ⟨some (), demoIn Phase.Stopped,
        [Event.call (Call.GetItem "/a/big.bin"),
         Event.WriteMessage (Message.FileList
           { FileListMsg.zero with Url := "/a/big.bin", Filename := "big.bin" })]⟩) :=
  ⟨(file_get_policy demoDeps allScopes (("edit", JValue.bool true) :: fileFrame "get" "/a")
      "file" "get" "/a" (demoIn Phase.Stopped) (demoIn Phase.Stopped)
      { Contents := none, ContentLength := 0, Name := "a",
        FileList := some ["b", "small.txt", "big.bin"] }
      (by decide) (by decide) (by decide) (by decide) (by decide) (by decide) (by decide)).1
      ["b", "small.txt", "big.bin"] rfl,
   ((file_get_policy demoDeps allScopes (fileFrame "get" "/a/small.txt")
      "file" "get" "/a/small.txt" (demoIn Phase.Stopped) (demoIn Phase.Stopped)
      { Contents := some [104, 105], ContentLength := 2, Name := "small.txt", FileList := none }
      (by decide) (by decide) (by decide) (by decide) (by decide) (by decide) (by decide)).2
      [104, 105] rfl rfl).1 (Or.inr (by decide)),
   ((file_get_policy demoDeps allScopes
      (("edit", JValue.bool true) :: fileFrame "get" "/a/small.txt")
      "file" "get" "/a/small.txt" (demoIn Phase.Stopped) (demoIn Phase.Stopped)
      { Contents := some [104, 105], ContentLength := 2, Name := "small.txt", FileList := none }
      (by decide) (by decide) (by decide) (by decide) (by decide) (by decide) (by decide)).2
      [104, 105] rfl rfl).2.mpr ⟨by decide, by decide⟩,
   ((file_get_policy demoDeps allScopes
      (("edit", JValue.bool true) :: fileFrame "get" "/a/big.bin")
      "file" "get" "/a/big.bin" (demoIn Phase.Stopped) (demoIn Phase.Stopped)
      { Contents := some [1, 2, 3, 4, 5, 6], ContentLength := 6, Name := "big.bin",
        FileList := none }
      (by decide) (by decide) (by decide) (by decide) (by decide) (by decide) (by decide)).2
      [1, 2, 3, 4, 5, 6] rfl rfl).1 (Or.inl (by decide))⟩

/-- Returning without effect writes no JSON object. -/
theorem noJSON_pure {σ α : Type} (a : α) : NoJSON (Act.pure a : Act σ α) := by
  intro s e he
  simp [Act.pure] at he

/-- A Server/Environment call writes no JSON object. -/
theorem noJSON_invoke {σ α : Type} (c : Call) (op : σ → OpResult σ α) :
    NoJSON (invoke c op) := by
  intro s e he obj
  unfold Pufferpanel.invoke at he
  cases h : op s <;> simp [h] at he <;> simp [he]

/-- The call `conn.WriteMessage` is not `conn.WriteJSON`. -/
theorem noJSON_WriteMessage {σ : Type} (m : Message) :
    NoJSON (WriteMessage m : Act σ Unit) := by
  intro s e he obj
  simp [Pufferpanel.WriteMessage] at he
  simp [he]

/-- Sequencing two pieces that write no JSON object writes none. -/
theorem noJSON_bind {σ α β : Type} {m : Act σ α} {f : α → Act σ β}
    (hm : NoJSON m) (hf : ∀ a, NoJSON (f a)) : NoJSON (Act.bind m f) := by
  intro s e he obj
  unfold Act.bind at he
  cases h : m s with
  | mk v s1 tr1 =>
    have h1 : ∀ e ∈ tr1, ∀ obj, e ≠ Event.WriteJSON obj := by
      intro e he
      have := hm s e
      rw [h] at this
      exact this he
    cases v with
    | none =>
      simp [h] at he
      exact h1 e he obj
    | some a =>
      simp only [h] at he
      cases h2 : f a s1 with
      | mk v2 s2 tr2 =>
        simp only [h2, List.mem_append] at he
        rcases he with he | he
        · exact h1 e he obj
        · have := hf a s1 e
          rw [h2] at this
          exact this he obj

/-- The function `handleGetFile` never calls `conn.WriteJSON`. -/
theorem noJSON_handleGetFile {σ : Type} (d : Deps σ) (path : String) (editMode : Bool) :
    NoJSON (handleGetFile d path editMode) := by
  unfold Pufferpanel.handleGetFile
  refine noJSON_bind (noJSON_invoke _ _) ?_
  intro r
  split
  · exact noJSON_WriteMessage _
  · split
    · exact noJSON_WriteMessage _
    · split
      · split
        · exact noJSON_WriteMessage _
        · exact noJSON_WriteMessage _
      · exact noJSON_pure _

/-- The `file` case never calls `conn.WriteJSON`. -/
theorem noJSON_handleFile {σ : Type} (d : Deps σ) (scopes : List Scope) (mapping : Mapping) :
    NoJSON (handleFile d scopes mapping) := by
  unfold handleFile
  split
  · exact noJSON_pure _
  · split
    · exact noJSON_pure _
    · dsimp only
      split
      · split
        · exact noJSON_pure _
        · exact noJSON_handleGetFile _ _ _
      · split
        · split
          · exact noJSON_pure _
          · refine noJSON_bind (noJSON_invoke _ _) ?_
            intro err
            split
            · exact noJSON_WriteMessage _
            · exact noJSON_handleGetFile _ _ _
        · split
          · split
            · exact noJSON_pure _
            · refine noJSON_bind (noJSON_invoke _ _) ?_
              intro err
              split
              · exact noJSON_WriteMessage _
              · exact noJSON_handleGetFile _ _ _
          · exact noJSON_pure _

/-- Handling a frame whose lowercased type is in the command set never calls
`conn.WriteJSON`. -/
theorem noJSON_known {σ : Type} (d : Deps σ) (scopes : List Scope) (mapping : Mapping)
    (message : String) (htype : (mapping.get "type").asString = some message)
    (hknown : d.ToLower message ∈ knownCommands) : NoJSON (dispatch d scopes mapping) := by
  simp only [knownCommands, List.mem_cons, List.mem_singleton, List.not_mem_nil, or_false]
    at hknown
  unfold dispatch
  simp only [htype]
  rcases hknown with h | h | h | h | h | h | h | h | h | h | h <;>
    simp only [h, String.reduceEq, if_true, if_false, ite_true, ite_false]
  · split
    · exact noJSON_bind (noJSON_invoke _ _) (fun _ => noJSON_WriteMessage _)
    · exact noJSON_pure _
  · split
    · refine noJSON_bind (noJSON_invoke _ _) ?_
      intro r
      split
      · exact noJSON_WriteMessage _
      · exact noJSON_WriteMessage _
    · exact noJSON_pure _
  · split
    · exact noJSON_bind (noJSON_invoke _ _) (fun _ => noJSON_WriteMessage _)
    · exact noJSON_pure _
  · split
    · exact noJSON_bind (noJSON_invoke _ _) (fun _ => noJSON_pure _)
    · exact noJSON_pure _
  · split
    · exact noJSON_bind (noJSON_invoke _ _) (fun _ => noJSON_pure _)
    · exact noJSON_pure _
  · split
    · exact noJSON_bind (noJSON_invoke _ _) (fun _ => noJSON_pure _)
    · exact noJSON_pure _
  · split
    · exact noJSON_bind (noJSON_invoke _ _) (fun _ => noJSON_pure _)
    · exact noJSON_pure _
  · split
    · exact noJSON_bind (noJSON_invoke _ _) (fun _ => noJSON_pure _)
    · exact noJSON_pure _
  · exact noJSON_WriteMessage _
  · split
    · split
      · refine noJSON_bind (noJSON_invoke _ _) ?_
        intro r
        split
        · exact noJSON_bind (noJSON_invoke _ _) (fun _ => noJSON_pure _)
        · exact noJSON_pure _
      · exact noJSON_pure _
    · exact noJSON_pure _
  · exact noJSON_handleFile _ _ _

/-- Handling a frame whose lowercased type is outside the command set writes the JSON object
`{"error":"unknown command"}` and does nothing else. -/
theorem dispatch_unknown {σ : Type} (d : Deps σ) (scopes : List Scope) (mapping : Mapping)
    (message : String) (s : σ) (htype : (mapping.get "type").asString = some message)
    (hnot : d.ToLower message ∉ knownCommands) :
    dispatch d scopes mapping s = ⟨some (), s, [unknownCommand]⟩ := by
  simp only [knownCommands, List.mem_cons, List.mem_singleton, List.not_mem_nil, or_false,
    not_or] at hnot
  obtain ⟨h1, h2, h3, h4, h5, h6, h7, h8, h9, h10, h11⟩ := hnot
  simp [dispatch, htype, h1, h2, h3, h4, h5, h6, h7, h8, h9, h10, h11, WriteJSON,
    unknownCommand]

/-- C2: for a decoded text frame whose `type` is a string, whatever the granted scopes: the
response written for the frame is exactly the JSON object `{"error":"unknown command"}` if
and only if the lowercased type is not in the command set; in that case nothing else happens
(no Server or Environment call, server state untouched) and the loop goes on with the next
frame. -/
theorem unknown_command_iff {σ : Type} (d : Deps σ) (scopes : List Scope) (mapping : Mapping)
    (message : String) (s : σ) (htype : (mapping.get "type").asString = some message) :
    (responses (dispatch d scopes mapping s).trace = [unknownCommand] ↔
      d.ToLower message ∉ knownCommands) ∧
    (d.ToLower message ∉ knownCommands →
      dispatch d scopes mapping s = ⟨some (), s, [unknownCommand]⟩ ∧
      ∀ rest, listenOnSocket d scopes (Recv.text (some mapping) :: rest) s =
        ((listenOnSocket d scopes rest s).1,
          unknownCommand :: (listenOnSocket d scopes rest s).2)) := by
  refine ⟨⟨?_, ?_⟩, ?_⟩
  · intro hresp hknown
    have hmem : unknownCommand ∈ responses (dispatch d scopes mapping s).trace := by
      rw [hresp]
      exact List.mem_singleton.mpr rfl
    have hin : unknownCommand ∈ (dispatch d scopes mapping s).trace :=
      (List.mem_filter.mp hmem).1
    exact noJSON_known d scopes mapping message htype hknown s _ hin _ rfl
  · intro hnot
    rw [dispatch_unknown d scopes mapping message s htype hnot]
    rfl
  · intro hnot
    have h := dispatch_unknown d scopes mapping message s htype hnot
    refine ⟨h, ?_⟩
    intro rest
    simp [listenOnSocket, h]

/-- Witness for C2: the frame `{"type":"bogus"}` followed by a ping. -/
theorem unknown_command_iff_witness :
    dispatch demoDeps allScopes (frame "bogus") (demoIn Phase.Running) =
      ⟨some (), demoIn Phase.Running, [unknownCommand]⟩ ∧
    (listenOnSocket demoDeps allScopes
      [Recv.text (some (frame "bogus")), Recv.text (some (frame "ping"))]
      (demoIn Phase.Running)).2 = [unknownCommand, Event.WriteMessage Message.Pong] := by
  have h := (unknown_command_iff demoDeps allScopes (frame "bogus") "bogus"
    (demoIn Phase.Running) (by decide)).2 (by decide)
  refine ⟨h.1, ?_⟩
  rw [h.2]
  decide

/-- The responses of two event lists in sequence. -/
theorem responses_append (a b : List Event) : responses (a ++ b) = responses a ++ responses b := by
  simp [responses]

/-- The calls of two event lists in sequence. -/
theorem calls_append (a b : List Event) : calls (a ++ b) = calls a ++ calls b := by
  simp [calls]

/-- C10, as the code has it: the response frames `listenOnSocket` writes, and the
Server/Environment calls it makes, are those of handling, in arrival order and each from the
server state the previous one left, the decoded text frames that arrive before the first
receive error, up to and including the first frame whose handling raises a fault.  Frames of
another type and text frames that do not decode contribute nothing and do not stop the loop;
nothing after the first receive error or after a faulting frame is handled. -/
theorem listen_until_error_or_fault {σ : Type} (d : Deps σ) (scopes : List Scope)
    (recvs : List Recv) (s : σ) :
    responses (listenOnSocket d scopes recvs s).2 =
      responses (framesUntilFault d scopes (decodedFrames (beforeError recvs)) s) ∧
    calls (listenOnSocket d scopes recvs s).2 =
      calls (framesUntilFault d scopes (decodedFrames (beforeError recvs)) s) := by
  induction recvs generalizing s with
  | nil => simp [listenOnSocket, beforeError, decodedFrames, framesUntilFault]
  | cons r rest ih =>
    cases r with
    | error =>
      simp [listenOnSocket, beforeError, decodedFrames, framesUntilFault, responses, calls,
        Event.isWrite, Event.isCall]
    | nonText =>
      simpa [listenOnSocket, beforeError, decodedFrames] using ih s
    | text decoded =>
      cases decoded with
      | none =>
        have h := ih s
        simp only [listenOnSocket, beforeError, decodedFrames]
        constructor
        · rw [← h.1]; simp [responses, Event.isWrite]
        · rw [← h.2]; simp [calls, Event.isCall]
      | some mapping =>
        simp only [listenOnSocket, beforeError, decodedFrames, framesUntilFault]
        cases hd : dispatch d scopes mapping s with
        | mk v s1 tr =>
          cases v with
          | none =>
            simp [responses_append, calls_append, responses, calls, Event.isWrite,
              Event.isCall]
          | some u =>
            have h := ih s1
            simp only [responses_append, calls_append, h.1, h.2, and_self]

/-- Counterexample to C10: on the example server with a faulting `Start`, a `start` frame
followed by a `ping` frame: the ping handled on its own is answered by `Pong`, and handling
every frame in turn would write that `Pong`, but `listenOnSocket` writes no response at all,
because the fault ends the loop. -/
theorem fault_ends_the_loop :
    responses (dispatch faultyDeps allScopes (frame "ping") (demoIn Phase.Stopped)).trace =
      [Event.WriteMessage Message.Pong] ∧
    responses (framesAll faultyDeps allScopes
      (decodedFrames (beforeError
        [Recv.text (some (frame "start")), Recv.text (some (frame "ping"))]))
      (demoIn Phase.Stopped)) = [Event.WriteMessage Message.Pong] ∧
    (listenOnSocket faultyDeps allScopes
      [Recv.text (some (frame "start")), Recv.text (some (frame "ping"))]
      (demoIn Phase.Stopped)).2 = [Event.call Call.Start, Event.log LogLine.recovered] ∧
    responses (listenOnSocket faultyDeps allScopes
      [Recv.text (some (frame "start")), Recv.text (some (frame "ping"))]
      (demoIn Phase.Stopped)).2 ≠
    responses (framesAll faultyDeps allScopes
      (decodedFrames (beforeError
        [Recv.text (some (frame "start")), Recv.text (some (frame "ping"))]))
      (demoIn Phase.Stopped)) := by
  refine ⟨by decide, by decide, by decide, by decide⟩

/-- When no frame's handling raises a fault, stopping at the first fault and handling every
frame give the same events. -/
theorem framesUntilFault_eq_framesAll {σ : Type} (d : Deps σ) (scopes : List Scope)
    (frames : List Mapping) (s : σ)
    (hok : ∀ mapping s, (dispatch d scopes mapping s).val ≠ none) :
    framesUntilFault d scopes frames s = framesAll d scopes frames s := by
  induction frames generalizing s with
  | nil => rfl
  | cons mapping rest ih =>
    simp only [framesUntilFault, framesAll]
    have h := hok mapping s
    cases hd : dispatch d scopes mapping s with
    | mk v s1 tr =>
      cases v with
      | none => simp [hd] at h
      | some u => simp [ih s1]

/-- What a `file` delete or create does on a connection holding `ServerFileEdit`: when
`DeleteItem` or `CreateFolder` returns an error, the one frame written is a `FileList` with
only that error; when it succeeds, handling goes on exactly as `handleGetFile` without edit
mode does, on `path.Dir` of the deleted path for delete and on the created path for create. -/
theorem file_edit_then_refetch {σ : Type} (d : Deps σ) (scopes : List Scope) (mapping : Mapping)
    (message action path : String) (s s1 : σ)
    (htype : (mapping.get "type").asString = some message)
    (hfile : d.ToLower message = "file")
    (haction : (mapping.get "action").asString = some action)
    (hpath : (mapping.get "path").asString = some path)
    (hscope : d.ContainsScope scopes Scope.ServerFileEdit = true) :
    (d.ToLower action = "delete" →
      (∀ e, d.DeleteItem path s = OpResult.ret (some e) s1 →
        dispatch d scopes mapping s = ⟨some (), s1,
          [Event.call (Call.DeleteItem path),
           Event.WriteMessage (Message.FileList { FileListMsg.zero with Error := e })]⟩) ∧
      (d.DeleteItem path s = OpResult.ret none s1 →
        dispatch d scopes mapping s =
          ⟨(handleGetFile d (Dir path) false s1).val, (handleGetFile d (Dir path) false s1).server,
            Event.call (Call.DeleteItem path) :: (handleGetFile d (Dir path) false s1).trace⟩)) ∧
    (d.ToLower action = "create" →
      (∀ e, d.CreateFolder path s = OpResult.ret (some e) s1 →
        dispatch d scopes mapping s = ⟨some (), s1,
          [Event.call (Call.CreateFolder path),
           Event.WriteMessage (Message.FileList { FileListMsg.zero with Error := e })]⟩) ∧
      (d.CreateFolder path s = OpResult.ret none s1 →
        dispatch d scopes mapping s =
          ⟨(handleGetFile d path false s1).val, (handleGetFile d path false s1).server,
            Event.call (Call.CreateFolder path) :: (handleGetFile d path false s1).trace⟩)) := by
  refine ⟨fun ha => ⟨?_, ?_⟩, fun ha => ⟨?_, ?_⟩⟩
  · intro e hret
    simp [dispatch, htype, hfile, handleFile, haction, hpath, ha, hscope, bind, Act.bind,
      invoke, hret, WriteMessage]
  · intro hret
    simp [dispatch, htype, hfile, handleFile, haction, hpath, ha, hscope, bind, Act.bind,
      invoke, hret]
  · intro e hret
    simp [dispatch, htype, hfile, handleFile, haction, hpath, ha, hscope, bind, Act.bind,
      invoke, hret, WriteMessage]
  · intro hret
    simp [dispatch, htype, hfile, handleFile, haction, hpath, ha, hscope, bind, Act.bind,
      invoke, hret]

/-- C7 at the path `/a/b/`: `path.Dir` of a path with a trailing slash is that path without
the slash, not its parent.  On the example server the delete of `/a/b/` succeeds (the
directory is gone afterwards), the listing then fetched is that of `/a/b`, the directory
just deleted, so the response is a `FileList` with an error; a file get of the parent `/a`
in the state after the delete would have returned its listing. -/
theorem delete_trailing_slash_refetches_deleted_dir :
    Dir "/a/b/" = "/a/b" ∧ Dir "/a/b" = "/a" ∧
    (dispatch demoDeps allScopes (fileFrame "delete" "/a/b/") (demoIn Phase.Stopped)).trace =
      [Event.call (Call.DeleteItem "/a/b/"), Event.call (Call.GetItem "/a/b"),
       Event.WriteMessage (Message.FileList
         { FileListMsg.zero with Error := "no such file or directory" })] ∧
    (dispatch demoDeps allScopes (fileFrame "delete" "/a/b/") (demoIn Phase.Stopped)).server =
      { phase := Phase.Stopped, stdin := [],
        entries := [("/", none), ("/a", none), ("/a/small.txt", some [104, 105]),
          ("/a/big.bin", some [1, 2, 3, 4, 5, 6])] } ∧
    (dispatch demoDeps allScopes (fileFrame "get" "/a")
      (dispatch demoDeps allScopes (fileFrame "delete" "/a/b/")
        (demoIn Phase.Stopped)).server).trace =
      [Event.call (Call.GetItem "/a"),
       Event.WriteMessage (Message.FileList
         { FileListMsg.zero with
           FileList := some ["small.txt", "big.bin"], CurrentPath := "/a" })] ∧
    (dispatch demoDeps allScopes (fileFrame "delete" "/a/b") (demoIn Phase.Stopped)).trace =
      [Event.call (Call.DeleteItem "/a/b"), Event.call (Call.GetItem "/a"),
       Event.WriteMessage (Message.FileList
         { FileListMsg.zero with
           FileList := some ["small.txt", "big.bin"], CurrentPath := "/a" })] := by
  refine ⟨by decide, by decide, by decide, by decide, by decide, by decide⟩

end Pufferpanel
